import Mathlib

/-!
Verification of the neferset rendering core against its specification.

The development embeds, in Lean, the code of:
  * `neferset/curved.py` (`CubicBezier`: coefficients, `evaluate`, `tangent`,
    `estimate_length`, the `arc_lengths` / `length` properties, `parametrize`,
    `offset`; and the font shrink loop of `CurvedText.draw`);
  * `custom.py` (`rgb_to_bytes`, `rgb_from_bytes`, `set_watermark`);
  * `generate.py` (`draw_clip_region`, `render_component`, the main loop);
  * `component.py` (the component records and `ShapeType`).

Python floats are modelled as exact rationals.  The helper modules
`neferset/geometry.py` (`Point`, `Vector4`) and `neferset/drawing.py`
(`text_path`, `draw_png_asset`, ...) are part of the repository but are not in
the sources under verification, so the facts about them that the code relies on
are modelled from the spec, as documented on each such definition.
-/

/-- Modelled from the spec: `neferset/geometry.py` is not among the sources.
`Point` is an "(x, y) scalar pair" supporting add, subtract, scale and
Euclidean distance (spec section 3). -/
@[ext]
structure Point where
  x : ℚ
  y : ℚ
deriving DecidableEq

/-- Pointwise addition of points, `p + q` of `geometry.Point`. -/
def Point.add (p q : Point) : Point := ⟨p.x + q.x, p.y + q.y⟩

/-- Modelled from the spec: the Euclidean distance of `geometry.Point` cannot be
a rational-valued function, so the distance is kept abstract: any function with
the properties of the Euclidean distance that the verified code relies on,
namely nonnegativity, vanishing on equal points, and translation invariance. -/
structure DistFn where
  d : Point → Point → ℚ
  nonneg : ∀ p q, 0 ≤ d p q
  refl_zero : ∀ p, d p p = 0
  translation_inv : ∀ p q v, d (p.add v) (q.add v) = d p q

/-- The taxicab distance: a concrete `DistFn` used to instantiate theorems.  On
points with equal `y` coordinates (all witness and counterexample curves below
keep `y = 0` throughout) it coincides with the Euclidean distance
`sqrt ((q.x - p.x)^2 + (q.y - p.y)^2) = |q.x - p.x|` that the source uses. -/
def l1D : DistFn where
  d p q := |q.x - p.x| + |q.y - p.y|
  nonneg p q := add_nonneg (abs_nonneg _) (abs_nonneg _)
  refl_zero p := by simp
  translation_inv p q v := by simp [Point.add]

/-- `curved.CubicBezier`: the four control points, the polynomial coefficients
set by `_from_points`, and the two caches set in `__init__`
(`self._arc_lengths = []`, `self._length = 0`). -/
structure CubicBezier where
  p0 : Point
  p1 : Point
  p2 : Point
  p3 : Point
  a : ℚ
  b : ℚ
  c : ℚ
  d : ℚ
  e : ℚ
  f : ℚ
  g : ℚ
  h : ℚ
  arcLengthsCache : List ℚ
  lengthCache : ℚ

/-- `CubicBezier._from_points`: stores the control points and derives the
polynomial coefficients; the caches are whatever they were before the call
(`_from_points` never touches `_arc_lengths` or `_length`). -/
def fromPoints (p0 p1 p2 p3 : Point) (cacheT : List ℚ) (cacheL : ℚ) : CubicBezier where
  p0 := p0
  p1 := p1
  p2 := p2
  p3 := p3
  a := p3.x - p2.x * 3 + p1.x * 3 - p0.x
  e := p3.y - p2.y * 3 + p1.y * 3 - p0.y
  b := 3 * p2.x - 6 * p1.x + 3 * p0.x
  f := 3 * p2.y - 6 * p1.y + 3 * p0.y
  c := 3 * p1.x - 3 * p0.x
  g := 3 * p1.y - 3 * p0.y
  d := p0.x
  h := p0.y
  arcLengthsCache := cacheT
  lengthCache := cacheL

/-- `CubicBezier.__init__` with four points: `_from_points` followed by
`self._arc_lengths = []` and `self._length = 0`. -/
def mk4 (p0 p1 p2 p3 : Point) : CubicBezier := fromPoints p0 p1 p2 p3 [] 0

/-- `CubicBezier.evaluate(t)`. -/
def CubicBezier.evaluate (bz : CubicBezier) (t : ℚ) : Point :=
  ⟨bz.a * t ^ 3 + bz.b * t ^ 2 + bz.c * t + bz.d,
   bz.e * t ^ 3 + bz.f * t ^ 2 + bz.g * t + bz.h⟩

/-- `CubicBezier.tangent(t)`. -/
def CubicBezier.tangent (bz : CubicBezier) (t : ℚ) : Point :=
  ⟨3 * bz.a * t ^ 2 + 2 * bz.b * t + bz.c,
   3 * bz.e * t ^ 2 + 2 * bz.f * t + bz.g⟩

/-- The cumulative sums of `estimate_length`: `cumDists D bz mx k` is the value
of the running `sum` after the first `k` distance accumulations, i.e. after the
loop has consumed the samples `evaluate(1/mx) .. evaluate(k/mx)` starting from
`prev = evaluate(0)`. -/
def cumDists (D : DistFn) (bz : CubicBezier) (mx : ℕ) : ℕ → ℚ
  | 0 => 0
  | k + 1 =>
      cumDists D bz mx k +
        D.d (bz.evaluate ((k : ℚ) / (mx : ℚ))) (bz.evaluate (((k : ℚ) + 1) / (mx : ℚ)))

/-- The list `self._arc_lengths` as rebuilt by `estimate_length(segments)`:
`[0]` followed by the running sums for `i in range(1, max + 1)` with
`max = segments + 1`; in total `segments + 2` entries. -/
def estimateArcLengths (D : DistFn) (bz : CubicBezier) (segments : ℕ) : List ℚ :=
  (List.range (segments + 2)).map (cumDists D bz (segments + 1))

/-- The return value of `estimate_length(segments)`: the final running sum. -/
def estimateTotal (D : DistFn) (bz : CubicBezier) (segments : ℕ) : ℚ :=
  cumDists D bz (segments + 1) (segments + 1)

/-- The `arc_lengths` property: if `len(self._arc_lengths) <= 0` it runs
`self._length = self.estimate_length()` (which rebuilds `self._arc_lengths`
with the default `segments = 100` and returns the final sum), then returns
`self._arc_lengths`.  The updated object is returned alongside the value. -/
def arcLengthsProp (D : DistFn) (bz : CubicBezier) : CubicBezier × List ℚ :=
  if bz.arcLengthsCache.length ≤ 0 then
    ({ bz with
        arcLengthsCache := estimateArcLengths D bz 100
        lengthCache := estimateTotal D bz 100 },
      estimateArcLengths D bz 100)
  else (bz, bz.arcLengthsCache)

/-- The `length` property: if `self._length <= 0` it runs
`self._length = self.estimate_length()` (which also rebuilds
`self._arc_lengths`), then returns `self._length`. -/
def lengthProp (D : DistFn) (bz : CubicBezier) : CubicBezier × ℚ :=
  if bz.lengthCache ≤ 0 then
    ({ bz with
        arcLengthsCache := estimateArcLengths D bz 100
        lengthCache := estimateTotal D bz 100 },
      estimateTotal D bz 100)
  else (bz, bz.lengthCache)

/-- One iteration of the `for i, v in enumerate(self.arc_lengths)` loop body of
`parametrize`: update `(index, best)` when `v < target_len and v > best`. -/
def scanStep (table : List ℚ) (target : ℚ) (acc : ℕ × ℚ) (i : ℕ) : ℕ × ℚ :=
  if table.getD i 0 < target ∧ acc.2 < table.getD i 0 then (i, table.getD i 0) else acc

/-- The whole scan loop of `parametrize`: starting from `index, best = 0, 0`, it
visits `i = 0, 1, ...` and breaks as soon as `i >= table_len - 1`, so exactly
the indices in `range (table_len - 1)` are processed. -/
def scanLoop (table : List ℚ) (target : ℚ) : ℕ × ℚ :=
  (List.range (table.length - 1)).foldl (scanStep table target) (0, 0)

/-- The `index` selected by the scan loop. -/
def scanIndex (table : List ℚ) (target : ℚ) : ℕ :=
  (scanLoop table target).1

/-- The tail of `parametrize` after `target_len` has been computed.  The source
can raise: `none` models an uncaught Python exception (`IndexError` on a table
with fewer than two entries, `ZeroDivisionError` when `seg_len == 0` or when
`table_len - 1 == 0`); otherwise the computed `t` is returned. -/
def parametrizeAt (table : List ℚ) (target : ℚ) : Option ℚ :=
  if table.getD (scanIndex table target) 0 = target then
    if table.length ≤ 1 then none
    else some ((scanIndex table target : ℚ) / ((table.length - 1 : ℕ) : ℚ))
  else if table.length ≤ scanIndex table target + 1 then none
  else if table.getD (scanIndex table target + 1) 0 - table.getD (scanIndex table target) 0 = 0
    then none
  else
    some (((scanIndex table target : ℚ) +
        (target - table.getD (scanIndex table target) 0) /
          (table.getD (scanIndex table target + 1) 0 - table.getD (scanIndex table target) 0)) /
      ((table.length - 1 : ℕ) : ℚ))

/-- The table scanned by `parametrize` is `self.arc_lengths`, i.e. the cached
table after the property access (built on first access), and
`target_len = u * arc_lengths[table_len - 1]`. -/
def parametrizeTable (table : List ℚ) (u : ℚ) : Option ℚ :=
  parametrizeAt table (u * table.getD (table.length - 1) 0)

/-- `CubicBezier.parametrize(u)`. -/
def parametrize (D : DistFn) (bz : CubicBezier) (u : ℚ) : Option ℚ :=
  parametrizeTable (arcLengthsProp D bz).2 u

/-- `CubicBezier.offset(x, y)`: `_from_points` on the four translated control
points; the caches are left untouched. -/
def CubicBezier.offset (bz : CubicBezier) (x y : ℚ) : CubicBezier :=
  fromPoints (bz.p0.add ⟨x, y⟩) (bz.p1.add ⟨x, y⟩) (bz.p2.add ⟨x, y⟩) (bz.p3.add ⟨x, y⟩)
    bz.arcLengthsCache bz.lengthCache

-- A quick sanity example (evaluate at the endpoints of a fresh curve).
example : (mk4 ⟨0, 0⟩ ⟨1, 0⟩ ⟨2, 0⟩ ⟨3, 0⟩).evaluate 0 = ⟨0, 0⟩ := by
  ext <;> simp [mk4, fromPoints, CubicBezier.evaluate]

/-- C9: for every set of four control points `P0..P3`, `evaluate(0) = P0` and
`evaluate(1) = P3` exactly, with the cubic coefficients `_from_points` derives
from the control points. -/
theorem C9_evaluate_endpoints (p0 p1 p2 p3 : Point) :
    (mk4 p0 p1 p2 p3).evaluate 0 = p0 ∧ (mk4 p0 p1 p2 p3).evaluate 1 = p3 := by
  constructor <;> ext <;> simp [mk4, fromPoints, CubicBezier.evaluate] <;> ring

/-! ### Lemmas about the scan loop and the arc-length table -/

@[simp]
lemma fromPoints_arcLengthsCache (p0 p1 p2 p3 : Point) (cT : List ℚ) (cL : ℚ) :
    (fromPoints p0 p1 p2 p3 cT cL).arcLengthsCache = cT := rfl

@[simp]
lemma fromPoints_lengthCache (p0 p1 p2 p3 : Point) (cT : List ℚ) (cL : ℚ) :
    (fromPoints p0 p1 p2 p3 cT cL).lengthCache = cL := rfl

lemma foldl_scan_succ (table : List ℚ) (target : ℚ) (acc : ℕ × ℚ) (k : ℕ) :
    (List.range (k + 1)).foldl (scanStep table target) acc =
      scanStep table target ((List.range k).foldl (scanStep table target) acc) k := by
  rw [List.range_succ, List.foldl_append]
  rfl

/-- If no table entry below the break index is below the target, the scan keeps
`index, best = 0, 0`. -/
lemma scan_no_update (table : List ℚ) (target : ℚ)
    (h : ∀ i, i < table.length - 1 → ¬ table.getD i 0 < target) :
    scanLoop table target = (0, 0) := by
  have key : ∀ k, k ≤ table.length - 1 →
      (List.range k).foldl (scanStep table target) (0, 0) = (0, 0) := by
    intro k
    induction k with
    | zero => intro _; rfl
    | succ k ih =>
        intro hk
        rw [foldl_scan_succ, ih (by omega)]
        unfold scanStep
        rw [if_neg fun hc => h k (by omega) hc.1]
  exact key _ le_rfl

/-- On a table that starts at `0`, is strictly increasing up to index `m`, and
stays below the target there, the scan ends at `(k, table[k])` after the
indices `0..k` have been processed, for any `k ≤ m`. -/
lemma scan_strict_run (table : List ℚ) (target : ℚ) (m : ℕ)
    (h0 : table.getD 0 0 = 0)
    (hs : ∀ i, i + 1 ≤ m → table.getD i 0 < table.getD (i + 1) 0)
    (hlt : ∀ i, i ≤ m → table.getD i 0 < target) :
    ∀ k, k ≤ m → (List.range (k + 1)).foldl (scanStep table target) (0, 0) =
      (k, table.getD k 0) := by
  intro k
  induction k with
  | zero =>
      intro _
      rw [foldl_scan_succ]
      show scanStep table target (0, 0) 0 = (0, table.getD 0 0)
      unfold scanStep
      have hcond : ¬ (table.getD 0 0 < target ∧ (0, (0 : ℚ)).2 < table.getD 0 0) := by
        rw [h0]; exact fun hc => lt_irrefl 0 hc.2
      rw [if_neg hcond, h0]
  | succ k ih =>
      intro hk
      rw [foldl_scan_succ, ih (by omega)]
      unfold scanStep
      rw [if_pos ⟨hlt (k + 1) hk, hs k hk⟩]

/-- Strict increase up to index `m` gives monotonicity there. -/
lemma getD_mono_of_strict (table : List ℚ) (m : ℕ)
    (hs : ∀ i, i + 1 ≤ m → table.getD i 0 < table.getD (i + 1) 0)
    (i j : ℕ) (hij : i ≤ j) (hj : j ≤ m) : table.getD i 0 ≤ table.getD j 0 := by
  induction hij with
  | refl => exact le_rfl
  | @step n hn ih => exact le_trans (ih (by omega)) (le_of_lt (hs n (by omega)))

lemma cumDists_le_succ (D : DistFn) (bz : CubicBezier) (mx k : ℕ) :
    cumDists D bz mx k ≤ cumDists D bz mx (k + 1) :=
  le_add_of_nonneg_right (D.nonneg _ _)

lemma cumDists_mono (D : DistFn) (bz : CubicBezier) (mx : ℕ) {i j : ℕ} (hij : i ≤ j) :
    cumDists D bz mx i ≤ cumDists D bz mx j := by
  induction hij with
  | refl => exact le_rfl
  | @step n hn ih => exact le_trans ih (cumDists_le_succ D bz mx n)

/-- The running sums only look at the curve through `evaluate`. -/
lemma cumDists_congr (D : DistFn) (bz1 bz2 : CubicBezier) (mx : ℕ)
    (h : ∀ t, bz1.evaluate t = bz2.evaluate t) (k : ℕ) :
    cumDists D bz1 mx k = cumDists D bz2 mx k := by
  induction k with
  | zero => rfl
  | succ k ih => simp only [cumDists, ih, h]

lemma estimateArcLengths_length (D : DistFn) (bz : CubicBezier) (s : ℕ) :
    (estimateArcLengths D bz s).length = s + 2 := by
  simp [estimateArcLengths]

lemma estimate_getD (D : DistFn) (bz : CubicBezier) (s k : ℕ) (hk : k < s + 2) :
    (estimateArcLengths D bz s).getD k 0 = cumDists D bz (s + 1) k := by
  unfold estimateArcLengths
  rw [List.getD_eq_getElem _ _ (by simpa using hk)]
  simp

/-- On a freshly constructed curve the table cache is empty, so the
`arc_lengths` property rebuilds both caches. -/
lemma arcLengthsProp_mk4 (D : DistFn) (p0 p1 p2 p3 : Point) :
    arcLengthsProp D (mk4 p0 p1 p2 p3) =
      (fromPoints p0 p1 p2 p3 (estimateArcLengths D (mk4 p0 p1 p2 p3) 100)
          (estimateTotal D (mk4 p0 p1 p2 p3) 100),
        estimateArcLengths D (mk4 p0 p1 p2 p3) 100) := by
  unfold arcLengthsProp
  rw [if_pos (by simp [mk4])]
  rfl

lemma lengthProp_mk4 (D : DistFn) (p0 p1 p2 p3 : Point) :
    (lengthProp D (mk4 p0 p1 p2 p3)).2 = estimateTotal D (mk4 p0 p1 p2 p3) 100 := by
  unfold lengthProp
  rw [if_pos (by simp [mk4] : (mk4 p0 p1 p2 p3).lengthCache ≤ 0)]

/-- C4: on first access the `arc_lengths` property builds the table by sampling
`evaluate` at the 102 uniform parameters `i/101`, `i = 0..101` (the default
`segments = 100` of `estimate_length`), accumulating distances; the table has
102 entries, is monotonically non-decreasing, its last entry is the value the
`length` property returns, and a second access returns the cached table
unchanged. -/
theorem C4_arc_length_table (D : DistFn) (p0 p1 p2 p3 : Point) :
    (arcLengthsProp D (mk4 p0 p1 p2 p3)).2 =
        (List.range 102).map (cumDists D (mk4 p0 p1 p2 p3) 101) ∧
    (arcLengthsProp D (mk4 p0 p1 p2 p3)).2.length = 102 ∧
    (∀ i j, i ≤ j → j < 102 →
      (arcLengthsProp D (mk4 p0 p1 p2 p3)).2.getD i 0 ≤
        (arcLengthsProp D (mk4 p0 p1 p2 p3)).2.getD j 0) ∧
    (arcLengthsProp D (mk4 p0 p1 p2 p3)).2.getD 101 0 =
      (lengthProp D (mk4 p0 p1 p2 p3)).2 ∧
    arcLengthsProp D (arcLengthsProp D (mk4 p0 p1 p2 p3)).1 =
      ((arcLengthsProp D (mk4 p0 p1 p2 p3)).1, (arcLengthsProp D (mk4 p0 p1 p2 p3)).2) := by
  rw [arcLengthsProp_mk4]
  refine ⟨rfl, estimateArcLengths_length D _ 100, ?_, ?_, ?_⟩
  · intro i j hij hj
    show (estimateArcLengths D (mk4 p0 p1 p2 p3) 100).getD i 0 ≤
      (estimateArcLengths D (mk4 p0 p1 p2 p3) 100).getD j 0
    rw [estimate_getD D _ 100 i (by omega), estimate_getD D _ 100 j (by omega)]
    exact cumDists_mono D _ 101 hij
  · show (estimateArcLengths D (mk4 p0 p1 p2 p3) 100).getD 101 0 = _
    rw [estimate_getD D _ 100 101 (by omega), lengthProp_mk4]
    rfl
  · show arcLengthsProp D (fromPoints p0 p1 p2 p3 _ _) = _
    unfold arcLengthsProp
    rw [if_neg (by simp [estimateArcLengths_length])]
    rfl

/-! ### C3: `offset` and translation invariance -/

lemma evaluate_offset (p0 p1 p2 p3 : Point) (cT : List ℚ) (cL : ℚ) (dx dy t : ℚ) :
    ((fromPoints p0 p1 p2 p3 cT cL).offset dx dy).evaluate t =
      ((fromPoints p0 p1 p2 p3 cT cL).evaluate t).add ⟨dx, dy⟩ := by
  ext <;> simp [CubicBezier.offset, fromPoints, CubicBezier.evaluate, Point.add] <;> ring

lemma evaluate_fromPoints_cache_irrel (p0 p1 p2 p3 : Point) (cT : List ℚ) (cL : ℚ) (t : ℚ) :
    (fromPoints p0 p1 p2 p3 cT cL).evaluate t = (mk4 p0 p1 p2 p3).evaluate t := rfl

lemma cumDists_offset (D : DistFn) (p0 p1 p2 p3 : Point) (cT : List ℚ) (cL : ℚ)
    (dx dy : ℚ) (mx k : ℕ) :
    cumDists D ((fromPoints p0 p1 p2 p3 cT cL).offset dx dy) mx k =
      cumDists D (mk4 p0 p1 p2 p3) mx k := by
  induction k with
  | zero => rfl
  | succ k ih =>
      simp only [cumDists, ih]
      congr 1
      rw [evaluate_offset, evaluate_offset, evaluate_fromPoints_cache_irrel,
        evaluate_fromPoints_cache_irrel]
      exact D.translation_inv _ _ _

/-- C3: once the table has been built, `offset` translates the four control
points and rebuilds the coefficients (so the whole curve is translated), leaves
both caches untouched, and the cached table and total length still are exactly
what `estimate_length` would compute for the translated curve. -/
theorem C3_offset_preserves_cache (D : DistFn) (p0 p1 p2 p3 : Point) (dx dy : ℚ) :
    ((arcLengthsProp D (mk4 p0 p1 p2 p3)).1.offset dx dy).p0 = p0.add ⟨dx, dy⟩ ∧
    ((arcLengthsProp D (mk4 p0 p1 p2 p3)).1.offset dx dy).p1 = p1.add ⟨dx, dy⟩ ∧
    ((arcLengthsProp D (mk4 p0 p1 p2 p3)).1.offset dx dy).p2 = p2.add ⟨dx, dy⟩ ∧
    ((arcLengthsProp D (mk4 p0 p1 p2 p3)).1.offset dx dy).p3 = p3.add ⟨dx, dy⟩ ∧
    (∀ t, ((arcLengthsProp D (mk4 p0 p1 p2 p3)).1.offset dx dy).evaluate t =
      ((arcLengthsProp D (mk4 p0 p1 p2 p3)).1.evaluate t).add ⟨dx, dy⟩) ∧
    ((arcLengthsProp D (mk4 p0 p1 p2 p3)).1.offset dx dy).arcLengthsCache =
      (arcLengthsProp D (mk4 p0 p1 p2 p3)).1.arcLengthsCache ∧
    ((arcLengthsProp D (mk4 p0 p1 p2 p3)).1.offset dx dy).lengthCache =
      (arcLengthsProp D (mk4 p0 p1 p2 p3)).1.lengthCache ∧
    estimateArcLengths D ((arcLengthsProp D (mk4 p0 p1 p2 p3)).1.offset dx dy) 100 =
      (arcLengthsProp D (mk4 p0 p1 p2 p3)).1.arcLengthsCache ∧
    estimateTotal D ((arcLengthsProp D (mk4 p0 p1 p2 p3)).1.offset dx dy) 100 =
      (arcLengthsProp D (mk4 p0 p1 p2 p3)).1.lengthCache := by
  have h1 : (arcLengthsProp D (mk4 p0 p1 p2 p3)).1 =
      fromPoints p0 p1 p2 p3 (estimateArcLengths D (mk4 p0 p1 p2 p3) 100)
        (estimateTotal D (mk4 p0 p1 p2 p3) 100) := by
    rw [arcLengthsProp_mk4]
  rw [h1]
  refine ⟨rfl, rfl, rfl, rfl, ?_, rfl, rfl, ?_, ?_⟩
  · intro t
    exact evaluate_offset p0 p1 p2 p3 _ _ dx dy t
  · show estimateArcLengths D _ 100 = estimateArcLengths D (mk4 p0 p1 p2 p3) 100
    unfold estimateArcLengths
    exact List.map_congr_left fun i _ => cumDists_offset D p0 p1 p2 p3 _ _ dx dy 101 i
  · exact cumDists_offset D p0 p1 p2 p3 _ _ dx dy 101 101

/-! ### `parametrize` at the endpoints -/

/-- With target length `0`, the scan stays at index `0`, the exact-match branch
fires (`arc_lengths[0] == 0`), and `t = 0 / (table_len - 1) = 0`. -/
lemma parametrizeAt_zero (t : List ℚ) (h0 : t.getD 0 0 = 0) (hn : 2 ≤ t.length)
    (hnn : ∀ i, i < t.length - 1 → 0 ≤ t.getD i 0) :
    parametrizeAt t 0 = some 0 := by
  have hsc : scanIndex t 0 = 0 := by
    unfold scanIndex
    rw [scan_no_update t 0 fun i hi => not_lt.mpr (hnn i hi)]
  unfold parametrizeAt
  rw [hsc, h0, if_pos rfl, if_neg (by omega)]
  norm_num

lemma parametrizeTable_zero (t : List ℚ) (h0 : t.getD 0 0 = 0) (hn : 2 ≤ t.length)
    (hnn : ∀ i, i < t.length - 1 → 0 ≤ t.getD i 0) :
    parametrizeTable t 0 = some 0 := by
  unfold parametrizeTable
  rw [zero_mul]
  exact parametrizeAt_zero t h0 hn hnn

/-- On a 102-entry table that starts at `0` and is strictly increasing, the scan
for `u = 1` ends at index 100, no exact match happens, and the interpolation
gives exactly `(100 + 1) / 101 = 1`. -/
lemma parametrizeTable_one (t : List ℚ) (h0 : t.getD 0 0 = 0) (hlen : t.length = 102)
    (hst : ∀ i, i + 1 < 102 → t.getD i 0 < t.getD (i + 1) 0) :
    parametrizeTable t 1 = some 1 := by
  have e1 : (102 : ℕ) - 1 = 101 := rfl
  have hmono := getD_mono_of_strict t 101 fun i hi => hst i (by omega)
  have hlt : ∀ i, i ≤ 100 → t.getD i 0 < t.getD 101 0 := fun i hi =>
    lt_of_le_of_lt (hmono i 100 hi (by omega)) (hst 100 (by omega))
  have hscan : scanLoop t (t.getD 101 0) = (100, t.getD 100 0) := by
    unfold scanLoop
    rw [hlen, e1]
    exact scan_strict_run t _ 100 h0 (fun i hi => hst i (by omega)) hlt 100 le_rfl
  have hne : t.getD 100 0 ≠ t.getD 101 0 := ne_of_lt (hst 100 (by omega))
  unfold parametrizeTable parametrizeAt scanIndex
  rw [hlen, e1, one_mul, hscan]
  dsimp only
  rw [if_neg hne, if_neg (by omega), if_neg (sub_ne_zero.mpr (Ne.symm hne)),
    div_self (sub_ne_zero.mpr (Ne.symm hne))]
  norm_num

/-- On a 102-entry table that starts at `0`, is strictly increasing up to index
99, has `table[99] = table[100]`, and increases again at the last step, the
scan for `u = 1` ends at index 99 and the interpolation step divides by
`seg_len = table[100] - table[99] = 0`: a `ZeroDivisionError`. -/
lemma parametrizeTable_one_flat (t : List ℚ) (h0 : t.getD 0 0 = 0) (hlen : t.length = 102)
    (hs : ∀ i, i + 1 ≤ 99 → t.getD i 0 < t.getD (i + 1) 0)
    (heq : t.getD 99 0 = t.getD 100 0)
    (htop : t.getD 100 0 < t.getD 101 0) :
    parametrizeTable t 1 = none := by
  have e1 : (102 : ℕ) - 1 = 101 := rfl
  have hmono := getD_mono_of_strict t 99 hs
  have hlt : ∀ i, i ≤ 99 → t.getD i 0 < t.getD 101 0 := fun i hi =>
    lt_of_le_of_lt (hmono i 99 hi le_rfl) (heq ▸ htop)
  have hrun := scan_strict_run t (t.getD 101 0) 99 h0 hs hlt 99 le_rfl
  have hscan : scanLoop t (t.getD 101 0) = (99, t.getD 99 0) := by
    unfold scanLoop
    rw [hlen, e1]
    rw [show (101 : ℕ) = 100 + 1 from rfl, foldl_scan_succ,
      show (100 : ℕ) = 99 + 1 from rfl, hrun]
    unfold scanStep
    rw [if_neg fun hc => absurd hc.2 (by dsimp only; rw [heq]; exact lt_irrefl _)]
  unfold parametrizeTable parametrizeAt scanIndex
  rw [hlen, e1, one_mul, hscan]
  dsimp only
  rw [if_neg (ne_of_lt (hlt 99 le_rfl)), if_neg (by omega),
    if_pos (by rw [show (99 : ℕ) + 1 = 100 from rfl]; exact sub_eq_zero.mpr heq.symm)]

/-- C2 (amended): for every curve whose freshly built arc-length table is
strictly increasing — which in particular gives it positive arc length —
`parametrize(0)` returns exactly `0` and `parametrize(1)` returns exactly `1`,
by scanning the cached table and interpolating between the bracketing
entries. -/
theorem C2_parametrize_endpoints_amended (D : DistFn) (p0 p1 p2 p3 : Point)
    (hst : ∀ i, i + 1 < 102 →
      (arcLengthsProp D (mk4 p0 p1 p2 p3)).2.getD i 0 <
        (arcLengthsProp D (mk4 p0 p1 p2 p3)).2.getD (i + 1) 0) :
    parametrize D (mk4 p0 p1 p2 p3) 0 = some 0 ∧
    parametrize D (mk4 p0 p1 p2 p3) 1 = some 1 ∧
    0 < (lengthProp D (mk4 p0 p1 p2 p3)).2 := by
  have hsnd : (arcLengthsProp D (mk4 p0 p1 p2 p3)).2 =
      estimateArcLengths D (mk4 p0 p1 p2 p3) 100 := by rw [arcLengthsProp_mk4]
  rw [hsnd] at hst
  have h0 : (estimateArcLengths D (mk4 p0 p1 p2 p3) 100).getD 0 0 = 0 := by
    rw [estimate_getD D _ 100 0 (by omega)]
    rfl
  have hlen := estimateArcLengths_length D (mk4 p0 p1 p2 p3) 100
  have hmono := getD_mono_of_strict (estimateArcLengths D (mk4 p0 p1 p2 p3) 100) 101
    fun i hi => hst i (by omega)
  refine ⟨?_, ?_, ?_⟩
  · unfold parametrize
    rw [hsnd]
    refine parametrizeTable_zero _ h0 (by omega) fun i hi => ?_
    calc (0 : ℚ) = (estimateArcLengths D (mk4 p0 p1 p2 p3) 100).getD 0 0 := h0.symm
      _ ≤ _ := hmono 0 i (by omega) (by omega)
  · unfold parametrize
    rw [hsnd]
    exact parametrizeTable_one _ h0 hlen hst
  · rw [lengthProp_mk4]
    have := lt_of_le_of_lt (le_of_eq h0.symm)
      (lt_of_le_of_lt (hmono 0 100 (by omega) (by omega)) (hst 100 (by omega)))
    rw [estimate_getD D _ 100 101 (by omega)] at this
    exact this

lemma l1D_x (a b : ℚ) : l1D.d ⟨a, 0⟩ ⟨b, 0⟩ = |b - a| := by simp [l1D]

/-- The defining equation of `cumDists` in the successor case. -/
lemma cumDists_succ (D : DistFn) (bz : CubicBezier) (mx k : ℕ) :
    cumDists D bz mx (k + 1) =
      cumDists D bz mx k +
        D.d (bz.evaluate ((k : ℚ) / (mx : ℚ))) (bz.evaluate (((k : ℚ) + 1) / (mx : ℚ))) := rfl

lemma line_eval (t : ℚ) : (mk4 ⟨0, 0⟩ ⟨1, 0⟩ ⟨2, 0⟩ ⟨3, 0⟩).evaluate t = ⟨3 * t, 0⟩ := by
  ext <;> simp [mk4, fromPoints, CubicBezier.evaluate] <;> ring

lemma line_step (k : ℕ) :
    l1D.d ((mk4 ⟨0, 0⟩ ⟨1, 0⟩ ⟨2, 0⟩ ⟨3, 0⟩).evaluate ((k : ℚ) / ((101 : ℕ) : ℚ)))
      ((mk4 ⟨0, 0⟩ ⟨1, 0⟩ ⟨2, 0⟩ ⟨3, 0⟩).evaluate (((k : ℚ) + 1) / ((101 : ℕ) : ℚ))) =
      3 / 101 := by
  rw [line_eval, line_eval, l1D_x,
    show 3 * (((k : ℚ) + 1) / ((101 : ℕ) : ℚ)) - 3 * ((k : ℚ) / ((101 : ℕ) : ℚ)) = 3 / 101 by
      push_cast; ring,
    abs_of_pos (by norm_num : (0 : ℚ) < 3 / 101)]

lemma line_cum (k : ℕ) :
    cumDists l1D (mk4 ⟨0, 0⟩ ⟨1, 0⟩ ⟨2, 0⟩ ⟨3, 0⟩) 101 k = 3 * k / 101 := by
  induction k with
  | zero => norm_num [cumDists]
  | succ k ih =>
      rw [cumDists_succ, ih, line_step]
      push_cast
      ring

/-- C2 witness: the straight-line curve with control points `(0,0) .. (3,0)`
has a strictly increasing table, and both endpoint equations hold exactly. -/
theorem C2_parametrize_endpoints_witness :
    parametrize l1D (mk4 ⟨0, 0⟩ ⟨1, 0⟩ ⟨2, 0⟩ ⟨3, 0⟩) 0 = some 0 ∧
    parametrize l1D (mk4 ⟨0, 0⟩ ⟨1, 0⟩ ⟨2, 0⟩ ⟨3, 0⟩) 1 = some 1 ∧
    0 < (lengthProp l1D (mk4 ⟨0, 0⟩ ⟨1, 0⟩ ⟨2, 0⟩ ⟨3, 0⟩)).2 :=
  C2_parametrize_endpoints_amended l1D ⟨0, 0⟩ ⟨1, 0⟩ ⟨2, 0⟩ ⟨3, 0⟩ (by
    intro i hi
    have hsnd : (arcLengthsProp l1D (mk4 ⟨0, 0⟩ ⟨1, 0⟩ ⟨2, 0⟩ ⟨3, 0⟩)).2 =
        estimateArcLengths l1D (mk4 ⟨0, 0⟩ ⟨1, 0⟩ ⟨2, 0⟩ ⟨3, 0⟩) 100 := by
      rw [arcLengthsProp_mk4]
    rw [hsnd, estimate_getD _ _ 100 i (by omega), estimate_getD _ _ 100 (i + 1) (by omega),
      line_cum, line_cum]
    rw [div_lt_div_iff_of_pos_right (by norm_num : (0 : ℚ) < 101)]
    push_cast
    linarith)

/-- The counterexample curve for C2: the degenerate cubic with
`x(t) = (t - 199/202)^2` and `y = 0`.  Its samples at `i/101` satisfy
`x(99/101) = x(100/101) = 1/40804` while `x(1) = 9/40804`, so the arc-length
table is strictly increasing up to index 99, flat from 99 to 100 and increasing
again at the last step, yet the total arc length is positive. -/
def cxBz : CubicBezier :=
  mk4 ⟨39601/40804, 0⟩ ⟨38407/122412, 0⟩ ⟨-395/40804, 0⟩ ⟨9/40804, 0⟩

lemma cx_eval (t : ℚ) : cxBz.evaluate t = ⟨(t - 199/202) ^ 2, 0⟩ := by
  ext <;> simp [cxBz, mk4, fromPoints, CubicBezier.evaluate] <;> ring

lemma cx_step (k : ℕ) :
    l1D.d (cxBz.evaluate ((k : ℚ) / ((101 : ℕ) : ℚ)))
      (cxBz.evaluate (((k : ℚ) + 1) / ((101 : ℕ) : ℚ))) =
      |(8 * (k : ℚ) - 792) / 40804| := by
  rw [cx_eval, cx_eval, l1D_x,
    show (((k : ℚ) + 1) / ((101 : ℕ) : ℚ) - 199/202) ^ 2 -
        ((k : ℚ) / ((101 : ℕ) : ℚ) - 199/202) ^ 2 = (8 * (k : ℚ) - 792) / 40804 by
      push_cast; ring]

lemma cx_cum (k : ℕ) (hk : k ≤ 100) :
    cumDists l1D cxBz 101 k = 39601/40804 - ((2 * (k : ℚ) - 199) / 202) ^ 2 := by
  induction k with
  | zero => norm_num [cumDists]
  | succ k ih =>
      rw [cumDists_succ, ih (by omega), cx_step]
      have hkq : (k : ℚ) ≤ 99 := by exact_mod_cast (by omega : k ≤ 99)
      rw [abs_of_nonpos (by
        apply div_nonpos_of_nonpos_of_nonneg _ (by norm_num)
        linarith)]
      push_cast
      ring

lemma cx_cum101 :
    cumDists l1D cxBz 101 101 = 39600/40804 + 8/40804 := by
  rw [cumDists_succ, cx_cum 100 le_rfl, cx_step,
    abs_of_nonneg (by push_cast; norm_num : (0 : ℚ) ≤ (8 * ((100 : ℕ) : ℚ) - 792) / 40804)]
  push_cast
  norm_num

/-- C2 counterexample: `cxBz` has positive arc length, yet `parametrize(1)`
does not return `1`: the interpolation step divides by
`seg_len = arc_lengths[100] - arc_lengths[99] = 0`, so the source raises
`ZeroDivisionError` (modelled as `none`). -/
theorem C2_parametrize_counterexample :
    0 < (lengthProp l1D cxBz).2 ∧ parametrize l1D cxBz 1 = none := by
  have hsnd : (arcLengthsProp l1D cxBz).2 = estimateArcLengths l1D cxBz 100 :=
    congrArg Prod.snd (arcLengthsProp_mk4 l1D _ _ _ _)
  constructor
  · have hlen2 : (lengthProp l1D cxBz).2 = estimateTotal l1D cxBz 100 :=
      lengthProp_mk4 l1D _ _ _ _
    rw [hlen2]
    show (0 : ℚ) < cumDists l1D cxBz 101 101
    rw [cx_cum101]
    norm_num
  · unfold parametrize
    rw [hsnd]
    apply parametrizeTable_one_flat
    · rw [estimate_getD _ _ 100 0 (by omega)]
      rfl
    · exact estimateArcLengths_length _ _ 100
    · intro i hi
      rw [estimate_getD _ _ 100 i (by omega), estimate_getD _ _ 100 (i + 1) (by omega),
        cx_cum i (by omega), cx_cum (i + 1) (by omega)]
      have hq : ((2 * ((i : ℚ) + 1) - 199) / 202) ^ 2 =
          ((2 * (i : ℚ) - 199) / 202) ^ 2 + (8 * (i : ℚ) - 792) / 40804 := by ring
      have hiq : (i : ℚ) ≤ 98 := by exact_mod_cast (by omega : i ≤ 98)
      have h8 : (8 * (i : ℚ) - 792) / 40804 < 0 := by
        apply div_neg_of_neg_of_pos _ (by norm_num)
        linarith
      push_cast
      linarith
    · rw [estimate_getD _ _ 100 99 (by omega), estimate_getD _ _ 100 100 (by omega),
        cx_cum 99 (by omega), cx_cum 100 le_rfl]
      norm_num
    · rw [estimate_getD _ _ 100 100 (by omega), estimate_getD _ _ 100 101 (by omega),
        cx_cum 100 le_rfl, cx_cum101]
      norm_num

/-! ### C10: degenerate zero-length curves -/

/-- C10: if every entry of the (lazily built) arc-length table is zero, then for
every `u` in `[0, 1]` the target length `u * arc_lengths[table_len - 1]` is `0`,
the scan never updates, the exact-match branch fires at index `0` (its entry
equals the zero target), and `parametrize` returns `0` with no division. -/
theorem C10_degenerate_parametrize (D : DistFn) (p0 p1 p2 p3 : Point) (u : ℚ)
    (hz : ∀ x ∈ (arcLengthsProp D (mk4 p0 p1 p2 p3)).2, x = 0)
    (hu0 : 0 ≤ u) (hu1 : u ≤ 1) :
    parametrize D (mk4 p0 p1 p2 p3) u = some 0 := by
  have hsnd : (arcLengthsProp D (mk4 p0 p1 p2 p3)).2 =
      estimateArcLengths D (mk4 p0 p1 p2 p3) 100 := by rw [arcLengthsProp_mk4]
  rw [hsnd] at hz
  have hget : ∀ k, k < 102 → (estimateArcLengths D (mk4 p0 p1 p2 p3) 100).getD k 0 = 0 := by
    intro k hk
    rw [List.getD_eq_getElem _ _ (by rw [estimateArcLengths_length]; omega)]
    exact hz _ (List.getElem_mem _)
  unfold parametrize
  rw [hsnd]
  unfold parametrizeTable
  rw [estimateArcLengths_length, show (100 + 2 : ℕ) - 1 = 101 from rfl,
    hget 101 (by omega), mul_zero]
  exact parametrizeAt_zero _ (hget 0 (by omega))
    (by rw [estimateArcLengths_length]; omega)
    (fun i hi => le_of_eq (hget i (by
      rw [estimateArcLengths_length] at hi; omega)).symm)

lemma zero_eval (t : ℚ) :
    (mk4 ⟨0, 0⟩ ⟨0, 0⟩ ⟨0, 0⟩ ⟨0, 0⟩).evaluate t = ⟨0, 0⟩ := by
  ext <;> simp [mk4, fromPoints, CubicBezier.evaluate]

lemma zero_cum (k : ℕ) :
    cumDists l1D (mk4 ⟨0, 0⟩ ⟨0, 0⟩ ⟨0, 0⟩ ⟨0, 0⟩) 101 k = 0 := by
  induction k with
  | zero => rfl
  | succ k ih => rw [cumDists, ih, zero_eval, zero_eval, l1D.refl_zero, add_zero]

/-- C10 witness: the point curve at the origin has an all-zero table, and
`parametrize` at `u = 1/2` returns `0`. -/
theorem C10_degenerate_parametrize_witness :
    parametrize l1D (mk4 ⟨0, 0⟩ ⟨0, 0⟩ ⟨0, 0⟩ ⟨0, 0⟩) (1/2) = some 0 :=
  C10_degenerate_parametrize l1D ⟨0, 0⟩ ⟨0, 0⟩ ⟨0, 0⟩ ⟨0, 0⟩ (1/2)
    (by
      intro x hx
      rw [arcLengthsProp_mk4] at hx
      obtain ⟨i, hi, rfl⟩ := List.mem_map.mp hx
      exact zero_cum i)
    (by norm_num) (by norm_num)

/-! ### C8: the font shrink loop of `CurvedText.draw` -/

/-- The `while True` shrink loop of `CurvedText.draw` with `size_step = 1`:
while the measured `extents.width` at the current size exceeds `curve.length`,
decrement the size and retry.  Modelled from the spec for the missing shaping
collaborator: `text_path` (`neferset/drawing.py` is not among the sources) is
abstracted into the oracle `widthAt`, giving the measured width of the shaped
text at each integer font size (sizes may go negative, hence `ℤ`).  The source
loop is unbounded, so the model adds fuel; `none` means the loop has not
terminated within `fuel` iterations, and the loop terminates if and only if
some fuel returns `some`. -/
def shrinkLoop (widthAt : ℤ → ℚ) (curveLen : ℚ) : ℤ → ℕ → Option ℤ
  | _, 0 => none
  | size, fuel + 1 =>
      if curveLen < widthAt size then shrinkLoop widthAt curveLen (size - 1) fuel
      else some size

/-- C8 (refuted, code bug): the source has no minimum floor size, so on an
input whose measured width exceeds the curve length at every size — the width
oracle constantly `L + 1` — the loop never terminates: it returns `none` for
every amount of fuel, from every start size. -/
theorem C8_shrink_loop_diverges (L : ℚ) (s : ℤ) (fuel : ℕ) :
    shrinkLoop (fun _ => L + 1) L s fuel = none := by
  induction fuel generalizing s with
  | zero => rfl
  | succ fuel ih =>
      rw [shrinkLoop, if_pos (lt_add_one L)]
      exact ih (s - 1)

/-! ### The blend engine of `custom.py` -/

/-- An RGBA pixel as PIL hands it over: a tuple of integer byte values. -/
structure Pixel where
  r : ℤ
  g : ℤ
  b : ℤ
  a : ℤ
deriving DecidableEq

/-- Modelled from the spec: `Vector4` of `neferset/geometry.py` (not among the
sources), a fractional RGBA quadruple with componentwise arithmetic (spec 4.4
computes the blend "componentwise on fractional 0..1 RGBA"). -/
structure Vector4 where
  r : ℚ
  g : ℚ
  b : ℚ
  a : ℚ
deriving DecidableEq

/-- Componentwise product `u * v` of two `Vector4`. -/
def Vector4.mul (u v : Vector4) : Vector4 := ⟨u.r * v.r, u.g * v.g, u.b * v.b, u.a * v.a⟩

/-- Scalar product `u * s`. -/
def Vector4.smul (u : Vector4) (s : ℚ) : Vector4 := ⟨u.r * s, u.g * s, u.b * s, u.a * s⟩

/-- Componentwise difference `u - v`. -/
def Vector4.sub (u v : Vector4) : Vector4 := ⟨u.r - v.r, u.g - v.g, u.b - v.b, u.a - v.a⟩

/-- Componentwise sum `u + v`. -/
def Vector4.add (u v : Vector4) : Vector4 := ⟨u.r + v.r, u.g + v.g, u.b + v.b, u.a + v.a⟩

/-- Python's built-in `round`: nearest integer, ties to even. -/
def pyRound (q : ℚ) : ℤ :=
  if q - ⌊q⌋ = 1/2 then (if ⌊q⌋ % 2 = 0 then ⌊q⌋ else ⌊q⌋ + 1) else round q

/-- `custom.rgb_from_bytes`: byte values to a `Vector4` of fractions `i / 255`. -/
def rgb_from_bytes (p : Pixel) : Vector4 :=
  ⟨(p.r : ℚ) / 255, (p.g : ℚ) / 255, (p.b : ℚ) / 255, (p.a : ℚ) / 255⟩

/-- `custom.rgb_to_bytes`: fractions to a tuple of bytes, `int(round(i * 255))`
on each component. -/
def rgb_to_bytes (v : Vector4) : Pixel :=
  ⟨pyRound (v.r * 255), pyRound (v.g * 255), pyRound (v.b * 255), pyRound (v.a * 255)⟩

/-- The loop body of the per-pixel blend in `set_watermark`, for the mask pixel
`m` (`r0_data[i]`) and base pixel `bp` (`r1_data[i]`):
if `r0.a == 0` the base pixel is converted back unchanged, else
`r0 = r0 * tint * intensity; r2 = r1 * r0 - r1; r0 = r2 * r0.a + r1; r0.a = 1`.
-/
def blendPixel (tint : Vector4) (intensity : ℚ) (m bp : Pixel) : Pixel :=
  if (rgb_from_bytes m).a = 0 then rgb_to_bytes (rgb_from_bytes bp)
  else
    rgb_to_bytes
      { (((rgb_from_bytes bp).mul ((rgb_from_bytes m).mul tint |>.smul intensity)).sub
            (rgb_from_bytes bp)).smul
          ((rgb_from_bytes m).mul tint |>.smul intensity).a |>.add (rgb_from_bytes bp) with
        a := 1 }

/-- The whole `for i in range(len(r0_data))` blend loop, pairing mask and base
pixels positionally (the preceding assert makes both ranges equal in every run
that reaches the loop). -/
def blendLoop (tint : Vector4) (intensity : ℚ) (ms bs : List Pixel) : List Pixel :=
  (ms.zip bs).map fun q => blendPixel tint intensity q.1 q.2

/-- An uncaught Python exception of `generate.py` / `custom.py`. -/
inductive PyErr where
  | nameError
  | attributeError
  | assertionError
  | typeError
  | ioError
deriving DecidableEq

/-- The inputs of one `set_watermark` call.  Fields that the source reads from
`comp.custom` / `data` / the filesystem / PIL: `craftable` is
`card.card_set.craftable`; `cacheHit` is `isfile(image_path)`; `iconExists` is
`isfile(set_icon_path)`; `maskPixels` is `r0_data`, the pixel data of the
`base_image.width * base_image.height` canvas `set_img` that PIL produced by
pasting the resized set icon (an external computation, so the list is taken as
input); `fileW`, `fileH`, `filePixels` are `descp_img.width`, `.height` and
`r1_data`; `tint` and `intensity` come from `comp.custom`. -/
structure WmInput where
  craftable : Bool
  cacheHit : Bool
  iconExists : Bool
  maskPixels : List Pixel
  fileW : ℕ
  fileH : ℕ
  filePixels : List Pixel
  tint : Vector4
  intensity : ℚ
deriving DecidableEq

/-- `custom.set_watermark`, up to the external draw calls: returns `none` when
it draws nothing new (non-craftable set: early return; cached file: the cached
image is drawn), `some out` with the blended pixel data otherwise.  A missing
icon file is logged but `Image.open(set_icon_path)` then raises (`IOError`);
the `assert len(r0_data) == descp_img.width * descp_img.height` raises
`AssertionError` on a size mismatch. -/
def set_watermark (w : WmInput) : Except PyErr (Option (List Pixel)) :=
  if w.craftable = false then Except.ok none
  else if w.cacheHit = true then Except.ok none
  else if w.iconExists = false then Except.error PyErr.ioError
  else if w.maskPixels.length ≠ w.fileW * w.fileH then Except.error PyErr.assertionError
  else Except.ok (some (blendLoop w.tint w.intensity w.maskPixels w.filePixels))

lemma pyRound_intCast (z : ℤ) : pyRound ((z : ℤ) : ℚ) = z := by
  unfold pyRound
  rw [Int.floor_intCast]
  norm_num

/-- The byte-to-fraction-to-byte round trip is the identity. -/
lemma rgb_to_from_bytes (p : Pixel) : rgb_to_bytes (rgb_from_bytes p) = p := by
  unfold rgb_to_bytes rgb_from_bytes
  simp only [div_mul_cancel₀ _ (by norm_num : (255 : ℚ) ≠ 0), pyRound_intCast]

/-- C5: when mask and base have identical pixel dimensions and every mask pixel
has alpha byte `0`, every pixel takes the fast path and the blend output equals
the base image pixel-for-pixel: `set_watermark` produces exactly `r1_data`. -/
theorem C5_blend_identity (w : WmInput)
    (hcr : w.craftable = true) (hch : w.cacheHit = false) (hic : w.iconExists = true)
    (hdim : w.maskPixels.length = w.fileW * w.fileH)
    (hsame : w.filePixels.length = w.maskPixels.length)
    (ha : ∀ p ∈ w.maskPixels, p.a = 0) :
    set_watermark w = Except.ok (some w.filePixels) := by
  unfold set_watermark
  rw [hcr, hch, hic,
    if_neg (by simp), if_neg (by simp), if_neg (by simp),
    if_neg (show ¬w.maskPixels.length ≠ w.fileW * w.fileH from fun hne => hne hdim)]
  congr 2
  unfold blendLoop
  have key : ∀ ms bs : List Pixel, bs.length = ms.length → (∀ p ∈ ms, p.a = 0) →
      (ms.zip bs).map (fun q => blendPixel w.tint w.intensity q.1 q.2) = bs := by
    intro ms
    induction ms with
    | nil => intro bs hlen _; simp [List.length_eq_zero.mp (by simpa using hlen)]
    | cons m ms ih =>
        intro bs hlen hz
        match bs with
        | [] => simp at hlen
        | bp :: bs =>
            simp only [List.zip_cons_cons, List.map_cons]
            rw [ih bs (by simpa using hlen) fun p hp => hz p (List.mem_cons_of_mem m hp)]
            congr 1
            unfold blendPixel
            rw [if_pos (by
              show ((rgb_from_bytes m).a : ℚ) = 0
              unfold rgb_from_bytes
              rw [hz m (List.mem_cons_self m ms)]
              norm_num)]
            exact rgb_to_from_bytes bp
  exact key w.maskPixels w.filePixels hsame ha

/-- C5 witness: a one-pixel transparent mask over a one-pixel base leaves the
base pixel byte-identical. -/
theorem C5_blend_identity_witness :
    set_watermark
      { craftable := true, cacheHit := false, iconExists := true,
        maskPixels := [⟨5, 6, 7, 0⟩], fileW := 1, fileH := 1,
        filePixels := [⟨17, 18, 19, 255⟩], tint := ⟨1, 0, 0, 1⟩, intensity := 9/10 } =
      Except.ok (some [⟨17, 18, 19, 255⟩]) :=
  C5_blend_identity _ rfl rfl rfl rfl rfl (by
    intro p hp
    rw [List.mem_singleton.mp hp])

/-! ### The composition pipeline of `generate.py` -/

/-- `component.ShapeType`: `rectangle = 1`, `ellipse = 2`, `curve = 3`.  There
is no `path` member — `generate.draw_clip_region` nevertheless mentions
`ShapeType.path`, which matters below. -/
inductive ShapeTy where
  | rectangle
  | ellipse
  | curve
deriving DecidableEq

/-- `component.Clip`: a region plus its shape type. -/
structure ClipR where
  x : ℚ
  y : ℚ
  width : ℚ
  height : ℚ
  ty : ShapeTy
deriving DecidableEq

/-- `component.Image`: a region plus its asset mapping, reduced to the set of
asset keys (the values are file names used by the external draw call). -/
structure ImageR where
  x : ℚ
  y : ℚ
  width : ℚ
  height : ℚ
  assets : List String
deriving DecidableEq

/-- `component.Text`: a plain region. -/
structure TextR where
  x : ℚ
  y : ℚ
  width : ℚ
  height : ℚ
deriving DecidableEq

/-- `component.Curve`: the four points of a text curve. -/
structure CurveR where
  startP : Point
  c1 : Point
  c2 : Point
  endP : Point
deriving DecidableEq

/-- `component.Component`: one visual layer.  `custom` holds
`data["custom"]["name"]` when a custom record is present (the remaining custom
fields are part of the `WmInput` payload model).  Note that
`component.Component.__init__` defines no `font` attribute, although
`generate.render_component` reads `component.font`. -/
structure Component where
  layer : ℤ
  text : Option TextR
  image : Option ImageR
  clip : Option ClipR
  curve : Option CurveR
  custom : Option String
deriving DecidableEq

/-- `generate.ComponentData` (from `component.py`): the per-component data.
`data` carries the `set_watermark` payload when present. -/
structure CompData where
  key : Option String
  text : Option String
  override : Option String
  data : Option WmInput
deriving DecidableEq

/-- A drawing event, tagged with whether a clip was installed on the canvas at
the moment of the draw. -/
inductive Ev where
  | imgDraw (clipped : Bool)
  | customRun (clipped : Bool)
deriving DecidableEq

/-- The cairo context, as far as the pipeline observes it: whether the current
path is nonempty, whether a clip is installed, and the trace of draw events. -/
structure Ctx where
  pathNonempty : Bool
  clipInstalled : Bool
  events : List Ev
deriving DecidableEq

/-- `cairo.Context.clip()`: install the clip and clear the current path. -/
def ctxClip (ctx : Ctx) : Ctx := { ctx with clipInstalled := true, pathNonempty := false }

/-- `cairo.Context.reset_clip()`. -/
def resetClip (ctx : Ctx) : Ctx := { ctx with clipInstalled := false }

/-- Record a draw event. -/
def pushEvent (ctx : Ctx) (e : Ev) : Ctx := { ctx with events := ctx.events ++ [e] }

/-- `generate.draw_clip_region`:
`ellipse` builds an ellipse path (`rect_ellipse`); `rectangle` calls
`draw_rectangle`, a name defined nowhere in `generate.py` (the import is
`rectangle`), so it raises `NameError`; any other type reaches
`elif obj.type == ShapeType.path:`, and since `component.ShapeType` has no
member `path`, evaluating `ShapeType.path` raises `AttributeError` — the
`curve` branch with its `print("ERROR: unable to use a curve as a clipping
region")` is unreachable. -/
def draw_clip_region (ctx : Ctx) (cl : ClipR) : Except PyErr Ctx :=
  match cl.ty with
  | ShapeTy.ellipse => Except.ok { ctx with pathNonempty := true }
  | ShapeTy.rectangle => Except.error PyErr.nameError
  | ShapeTy.curve => Except.error PyErr.attributeError

/-- The clip step of `render_component`: if a clip region is present, build its
path and call `context.clip()`. -/
def clipStep (ctx : Ctx) (c : Component) : Except PyErr Ctx :=
  match c.clip with
  | some cl =>
      match draw_clip_region ctx cl with
      | Except.ok ctx1 => Except.ok (ctxClip ctx1)
      | Except.error e => Except.error e
  | none => Except.ok ctx

/-- The image step of `render_component`: with an image and an override, draw
the override and reset the clip; else with an image whose assets contain the
data key, draw that asset and reset the clip; else do nothing.  The external
`draw_png_asset` (from the missing `neferset/drawing.py`) is modelled as an
`imgDraw` event recording the clip state it draws under. -/
def imageStep (ctx : Ctx) (c : Component) (d : CompData) : Ctx :=
  match c.image, d.override with
  | some _, some _ => resetClip (pushEvent ctx (Ev.imgDraw ctx.clipInstalled))
  | _, _ =>
      match c.image, d.key with
      | some img, some k =>
          if k ∈ img.assets then resetClip (pushEvent ctx (Ev.imgDraw ctx.clipInstalled))
          else ctx
      | _, _ => ctx

/-- The custom step of `render_component`: `if component.custom:` then look the
name up with `hasattr(neferset.custom, name)`; the only drawing handler there
is `set_watermark` (modelled as the registry); an unknown name is skipped
silently.  `set_watermark` subscripts `data.data`, so a missing payload raises
`TypeError`; an exception inside the handler propagates. -/
def customStep (ctx : Ctx) (c : Component) (d : CompData) : Except PyErr Ctx :=
  match c.custom with
  | none => Except.ok ctx
  | some name =>
      if name = "set_watermark" then
        match d.data with
        | some w =>
            match set_watermark w with
            | Except.ok _ => Except.ok (pushEvent ctx (Ev.customRun ctx.clipInstalled))
            | Except.error e => Except.error e
        | none => Except.error PyErr.typeError
      else Except.ok ctx

/-- `generate.render_component`: clip step, image step, text step, curved-text
step, custom step, in source order.  The text step runs under
`if component.text and component.font and data.text:` — but `Component` has no
`font` attribute, so whenever `component.text` is truthy the attribute access
raises `AttributeError`; the curved-text step reads `component.font` the same
way. -/
def render_component (ctx : Ctx) (c : Component) (d : CompData) : Except PyErr Ctx :=
  match clipStep ctx c with
  | Except.error e => Except.error e
  | Except.ok ctx1 =>
      match c.text with
      | some _ => Except.error PyErr.attributeError
      | none =>
          match c.curve with
          | some _ => Except.error PyErr.attributeError
          | none => customStep (imageStep ctx1 c d) c d

/-- The rendering loop of `generate.main`: for each component with data, call
`render_component`; there is no exception handler, so the first uncaught
exception aborts the whole loop (and the program — no output is written). -/
def renderAll (ctx : Ctx) : List (Component × Option CompData) → Except PyErr Ctx
  | [] => Except.ok ctx
  | (c, some d) :: rest =>
      match render_component ctx c d with
      | Except.ok ctx1 => renderAll ctx1 rest
      | Except.error e => Except.error e
  | (_, none) :: rest => renderAll ctx rest

/-! ### C7: curve-shaped clip regions -/

/-- C7 (refuted, code bug): rendering a component whose clip region has shape
`curve` raises `AttributeError` (the comparison `obj.type == ShapeType.path`
evaluates the nonexistent member `ShapeType.path` before the curve branch can
log and skip), so nothing is drawn, the component's remaining steps never run,
and the whole render aborts. -/
theorem C7_curve_clip_attribute_error :
    render_component { pathNonempty := false, clipInstalled := false, events := [] }
      { layer := 0, text := none, image := some ⟨0, 0, 10, 10, ["default"]⟩,
        clip := some ⟨0, 0, 10, 10, ShapeTy.curve⟩, curve := none, custom := none }
      { key := some "default", text := none, override := none, data := none } =
      Except.error PyErr.attributeError := rfl

/-! ### C1: the clip lifecycle -/

/-- Whether the image step attempts a draw: an override is supplied, or the
asset set of the component's image contains the data key (mirrors the
`if`/`elif` guards of the image step). -/
def imageAttempt (c : Component) (d : CompData) : Bool :=
  match c.image, d.override with
  | some _, some _ => true
  | _, _ =>
      match c.image, d.key with
      | some img, some k => decide (k ∈ img.assets)
      | _, _ => false

lemma imageStep_of_attempt (ctx : Ctx) (c : Component) (d : CompData)
    (h : imageAttempt c d = true) :
    imageStep ctx c d = resetClip (pushEvent ctx (Ev.imgDraw ctx.clipInstalled)) := by
  unfold imageAttempt at h
  unfold imageStep
  cases hI : c.image with
  | none =>
      rw [hI] at h
      cases hO : d.override with
      | some o => rw [hO] at h; cases hK : d.key <;> rw [hK] at h <;> simp at h
      | none => rw [hO] at h; cases hK : d.key <;> rw [hK] at h <;> simp at h
  | some img =>
      rw [hI] at h
      cases hO : d.override with
      | some o => rfl
      | none =>
          rw [hO] at h
          cases hK : d.key with
          | none => rw [hK] at h; simp at h
          | some k =>
              rw [hK] at h
              dsimp only at h ⊢
              rw [if_pos (of_decide_eq_true h)]

lemma imageStep_of_not_attempt (ctx : Ctx) (c : Component) (d : CompData)
    (h : imageAttempt c d = false) :
    imageStep ctx c d = ctx := by
  unfold imageAttempt at h
  unfold imageStep
  cases hI : c.image with
  | none =>
      cases hO : d.override with
      | some o => rfl
      | none => rfl
  | some img =>
      rw [hI] at h
      cases hO : d.override with
      | some o => rw [hO] at h; simp at h
      | none =>
          rw [hO] at h
          cases hK : d.key with
          | none => rfl
          | some k =>
              rw [hK] at h
              dsimp only at h ⊢
              rw [if_neg (of_decide_eq_false h)]

lemma customStep_ok (ctx ctx' : Ctx) (c : Component) (d : CompData)
    (h : customStep ctx c d = Except.ok ctx') :
    ctx'.clipInstalled = ctx.clipInstalled ∧
    (ctx'.events = ctx.events ∨ ctx'.events = ctx.events ++ [Ev.customRun ctx.clipInstalled]) := by
  unfold customStep at h
  cases hC : c.custom with
  | none =>
      rw [hC] at h
      simp only [Except.ok.injEq] at h
      subst h
      exact ⟨rfl, Or.inl rfl⟩
  | some name =>
      rw [hC] at h
      dsimp only at h
      by_cases hn : name = "set_watermark"
      · rw [if_pos hn] at h
        cases hD : d.data with
        | none => rw [hD] at h; simp at h
        | some w =>
            rw [hD] at h
            dsimp only at h
            cases hsw : set_watermark w with
            | ok v =>
                rw [hsw] at h
                simp only [Except.ok.injEq] at h
                subst h
                exact ⟨rfl, Or.inr rfl⟩
            | error e => rw [hsw] at h; simp at h
      · rw [if_neg hn] at h
        simp only [Except.ok.injEq] at h
        subst h
        exact ⟨rfl, Or.inl rfl⟩

lemma clipStep_none (ctx : Ctx) (c : Component) (h : c.clip = none) :
    clipStep ctx c = Except.ok ctx := by
  unfold clipStep
  rw [h]

lemma clipStep_ellipse (ctx : Ctx) (c : Component) (cl : ClipR)
    (h : c.clip = some cl) (he : cl.ty = ShapeTy.ellipse) :
    clipStep ctx c =
      Except.ok { ctx with pathNonempty := false, clipInstalled := true } := by
  unfold clipStep draw_clip_region
  rw [h]
  dsimp only
  rw [he]
  rfl

/-- C1 (amended): the clip resets before the next component only for components
that attempt an image draw.  Precisely: for a component whose steps raise no
exception (its clip, when present, is an ellipse — rectangle and curve clips
crash — and its text and curve data are absent, since `component.font` is
missing), if an installed clip is always followed by an image-draw attempt,
then a canvas that enters with no clip leaves with no clip, and every custom
step the component runs draws with no clip installed. -/
theorem C1_clip_reset_amended (ctx ctx' : Ctx) (c : Component) (d : CompData)
    (hin : ctx.clipInstalled = false)
    (htext : c.text = none) (hcurve : c.curve = none)
    (hcl : ∀ cl, c.clip = some cl → cl.ty = ShapeTy.ellipse ∧ imageAttempt c d = true)
    (hok : render_component ctx c d = Except.ok ctx') :
    ctx'.clipInstalled = false ∧
    (∀ b, Ev.customRun b ∈ ctx'.events → Ev.customRun b ∈ ctx.events ∨ b = false) := by
  unfold render_component at hok
  cases hclip : c.clip with
  | none =>
      rw [clipStep_none ctx c hclip] at hok
      dsimp only at hok
      rw [htext] at hok
      dsimp only at hok
      rw [hcurve] at hok
      dsimp only at hok
      by_cases hatt : imageAttempt c d = true
      · rw [imageStep_of_attempt ctx c d hatt] at hok
        obtain ⟨hcli, hev⟩ := customStep_ok _ ctx' c d hok
        refine ⟨hcli.trans rfl, ?_⟩
        intro b hb
        rcases hev with he | he <;> rw [he] at hb <;>
          simp only [resetClip, pushEvent, List.mem_append, List.mem_singleton] at hb
        · rcases hb with h1 | h1
          · exact Or.inl h1
          · exact absurd h1 (by simp)
        · rcases hb with (h1 | h1) | h1
          · exact Or.inl h1
          · exact absurd h1 (by simp)
          · exact Or.inr (by injection h1)
      · rw [imageStep_of_not_attempt ctx c d (Bool.not_eq_true _ ▸ hatt : imageAttempt c d = false)] at hok
        obtain ⟨hcli, hev⟩ := customStep_ok ctx ctx' c d hok
        refine ⟨hcli.trans hin, ?_⟩
        intro b hb
        rcases hev with he | he <;> rw [he] at hb
        · exact Or.inl hb
        · rcases List.mem_append.mp hb with h1 | h1
          · exact Or.inl h1
          · right
            have : b = ctx.clipInstalled := by
              have := List.mem_singleton.mp h1
              injection this
            exact this.trans hin
  | some cl =>
      obtain ⟨hell, hatt⟩ := hcl cl hclip
      rw [clipStep_ellipse ctx c cl hclip hell] at hok
      dsimp only at hok
      rw [htext] at hok
      dsimp only at hok
      rw [hcurve] at hok
      dsimp only at hok
      rw [imageStep_of_attempt _ c d hatt] at hok
      obtain ⟨hcli, hev⟩ := customStep_ok _ ctx' c d hok
      refine ⟨hcli.trans rfl, ?_⟩
      intro b hb
      rcases hev with he | he <;> rw [he] at hb <;>
        simp only [resetClip, pushEvent, List.mem_append, List.mem_singleton] at hb
      · rcases hb with h1 | h1
        · exact Or.inl h1
        · exact absurd h1 (by simp)
      · rcases hb with (h1 | h1) | h1
        · exact Or.inl h1
        · exact absurd h1 (by simp)
        · exact Or.inr (by injection h1)

/-- C1 counterexample: a component with an (ellipse) clip region but no image
draw — here no image data at all — leaves the canvas with the clip still
installed after its render completes: `clipInstalled = true` in the final
state, so the clip leaks into every following draw, against the claimed
`none → installed → reset-to-none` lifecycle. -/
theorem C1_clip_leak_counterexample :
    render_component { pathNonempty := false, clipInstalled := false, events := [] }
      { layer := 0, text := none, image := none,
        clip := some ⟨0, 0, 10, 10, ShapeTy.ellipse⟩, curve := none, custom := none }
      { key := some "default", text := none, override := none, data := none } =
      Except.ok { pathNonempty := false, clipInstalled := true, events := [] } ∧
    (Ctx.mk false true []).clipInstalled = true :=
  ⟨rfl, rfl⟩

/-- C1 witness: a component with an ellipse clip whose image draw is attempted
(its asset set contains the data key) resets the clip, so the final state has
no clip installed. -/
theorem C1_clip_reset_witness :
    (Ctx.mk false false [Ev.imgDraw true]).clipInstalled = false ∧
    (∀ b, Ev.customRun b ∈ (Ctx.mk false false [Ev.imgDraw true]).events →
      Ev.customRun b ∈ (Ctx.mk false false []).events ∨ b = false) :=
  C1_clip_reset_amended
    { pathNonempty := false, clipInstalled := false, events := [] }
    { pathNonempty := false, clipInstalled := false, events := [Ev.imgDraw true] }
    { layer := 0, text := none, image := some ⟨0, 0, 10, 10, ["k"]⟩,
      clip := some ⟨0, 0, 10, 10, ShapeTy.ellipse⟩, curve := none, custom := none }
    { key := some "k", text := none, override := none, data := none }
    rfl rfl rfl
    (by
      intro cl hcl
      cases hcl
      exact ⟨rfl, by decide⟩)
    (by rfl)

/-! ### C6: the blend size assert and the main loop -/

/-- C6 (amended): a `set_watermark` component whose mask pixel count disagrees
with the base file's `width * height` raises `AssertionError`, and since the
main loop has no exception handler this aborts the whole render: `renderAll`
returns the error no matter what components follow. -/
theorem C6_mismatch_aborts (ctx : Ctx) (w : WmInput)
    (rest : List (Component × Option CompData))
    (hcr : w.craftable = true) (hch : w.cacheHit = false) (hic : w.iconExists = true)
    (hmm : w.maskPixels.length ≠ w.fileW * w.fileH) :
    renderAll ctx
      (({ layer := 0, text := none, image := none, clip := none, curve := none,
          custom := some "set_watermark" },
        some { key := none, text := none, override := none, data := some w }) :: rest) =
      Except.error PyErr.assertionError := by
  have hsw : set_watermark w = Except.error PyErr.assertionError := by
    unfold set_watermark
    rw [hcr, hch, hic, if_neg (by simp), if_neg (by simp), if_neg (by simp), if_pos hmm]
  have hrc : render_component ctx
      { layer := 0, text := none, image := none, clip := none, curve := none,
        custom := some "set_watermark" }
      { key := none, text := none, override := none, data := some w } =
      Except.error PyErr.assertionError := by
    unfold render_component clipStep imageStep customStep
    dsimp only
    rw [if_pos rfl, hsw]
  simp only [renderAll, hrc]

/-- C6 witness: a concrete mismatched watermark component (one mask pixel
against a declared 2x1 base file) aborts the render with `AssertionError`,
with a further image component still pending. -/
theorem C6_mismatch_aborts_witness :
    renderAll { pathNonempty := false, clipInstalled := false, events := [] }
      (({ layer := 0, text := none, image := none, clip := none, curve := none,
          custom := some "set_watermark" },
        some { key := none, text := none, override := none,
               data := some { craftable := true, cacheHit := false, iconExists := true,
                              maskPixels := [⟨0, 0, 0, 255⟩], fileW := 2, fileH := 1,
                              filePixels := [⟨1, 2, 3, 255⟩, ⟨4, 5, 6, 255⟩],
                              tint := ⟨1, 1, 1, 1⟩, intensity := 1 } }) ::
        [({ layer := 1, text := none, image := some ⟨0, 0, 4, 4, []⟩, clip := none,
            curve := none, custom := none },
          some { key := none, text := none, override := some "x.png", data := none })]) =
      Except.error PyErr.assertionError :=
  C6_mismatch_aborts _ _ _ rfl rfl rfl (by decide)

/-- C6 counterexample: with the same mismatched watermark component first and
an image component second, the pipeline returns the `AssertionError` — it does
not continue with the next component — although the second component on its
own renders fine and draws its image. -/
theorem C6_continue_counterexample :
    renderAll { pathNonempty := false, clipInstalled := false, events := [] }
      (({ layer := 0, text := none, image := none, clip := none, curve := none,
          custom := some "set_watermark" },
        some { key := none, text := none, override := none,
               data := some { craftable := true, cacheHit := false, iconExists := true,
                              maskPixels := [⟨9, 9, 9, 9⟩], fileW := 3, fileH := 1,
                              filePixels := [⟨1, 2, 3, 255⟩, ⟨4, 5, 6, 255⟩, ⟨7, 8, 9, 255⟩],
                              tint := ⟨1, 1, 1, 1⟩, intensity := 1 } }) ::
        [({ layer := 1, text := none, image := some ⟨0, 0, 4, 4, []⟩, clip := none,
            curve := none, custom := none },
          some { key := none, text := none, override := some "x.png", data := none })]) =
      Except.error PyErr.assertionError ∧
    renderAll { pathNonempty := false, clipInstalled := false, events := [] }
      [({ layer := 1, text := none, image := some ⟨0, 0, 4, 4, []⟩, clip := none,
          curve := none, custom := none },
        some { key := none, text := none, override := some "x.png", data := none })] =
      Except.ok { pathNonempty := false, clipInstalled := false,
                  events := [Ev.imgDraw false] } :=
  ⟨rfl, rfl⟩
